import Mathlib

/-!
A verification development for the Devall CMS page-composition and
token-resolution engine (`cms/services/publisher.py` together with the
publish view in `cms/views/pages.py`).

Strings are modelled as `List Char` (`Str`).  Python string builtins
(`str.replace`, `str.strip`, `str.lower`, truthiness, the `in` operator)
are given their Python semantics; `.strip()` and `\s` use the ASCII
whitespace class, and `.lower()` lowers ASCII letters (the engine's own
tokens are all ASCII, so this agrees with Python on every input the
mini-language distinguishes).  The three regular expressions of
`publisher.py` are small enough that Python's backtracking on them is
deterministic; they are embedded as explicit character-list scanners that
implement exactly the leftmost-match / continue-after-match semantics of
`re.sub` and the search-and-splice loop of the conditional resolver.
-/

namespace Cms

/-- Program strings: Python `str` as a list of characters. -/
abbrev Str := List Char

/-- Coerce a Lean string literal into the model's string type. -/
def toStr (s : String) : Str := s.data

/-- The opening-brace character. -/
def lb : Char := '\x7b'

/-- The closing-brace character. -/
def rb : Char := '\x7d'

/-- Python's ASCII whitespace class `\s` (space, tab, LF, CR, VT, FF). -/
def pyIsSpace (c : Char) : Bool :=
  c == ' ' || c == '\t' || c == '\n' || c == '\x0d' || c == '\x0b' || c == '\x0c'

/-- `str.strip()`: drop whitespace at both ends. -/
def pyStrip (s : Str) : Str :=
  ((s.dropWhile pyIsSpace).reverse.dropWhile pyIsSpace).reverse

/-- Lower-case one ASCII letter (model of `str.lower` per character). -/
def asciiLower (c : Char) : Char :=
  if 'A' ≤ c ∧ c ≤ 'Z' then Char.ofNat (c.toNat + 32) else c

/-- `str.lower()` for the ASCII strings the mini-language compares. -/
def lowerStr (s : Str) : Str := s.map asciiLower

/-- Python truthiness of an optional string column: `None` and `''` are falsy. -/
def pyTruthy (o : Option Str) : Bool :=
  match o with
  | none => false
  | some s => !s.isEmpty

/-- `x or ''` on a nullable string column. -/
def orEmpty (o : Option Str) : Str := o.getD []

/-- `str(x)` on a nullable string: `None` prints as `"None"`. -/
def pyStr (o : Option Str) : Str :=
  match o with
  | none => toStr "None"
  | some s => s

/-- Python's substring test `pat in s` (for nonempty `pat`). -/
def containsSub (pat : Str) : Str → Bool
  | [] => pat.isEmpty
  | c :: rest => pat.isPrefixOf (c :: rest) || containsSub pat rest

/-- One step of `str.replace`: fuelled left-to-right scan replacing every
non-overlapping occurrence of `pat` (the fuel is always sufficient, each
step consumes at least one character of the input). -/
def replaceAllGo (pat rep : Str) : Nat → Str → Str
  | 0, s => s
  | _ + 1, [] => []
  | fuel + 1, c :: rest =>
    if pat ≠ [] ∧ pat.isPrefixOf (c :: rest) then
      rep ++ replaceAllGo pat rep fuel ((c :: rest).drop pat.length)
    else
      c :: replaceAllGo pat rep fuel rest

/-- Python `s.replace(pat, rep)` for the engine's nonempty patterns. -/
def replaceAll (pat rep s : Str) : Str := replaceAllGo pat rep (s.length + 1) s

/-- Value of an ASCII digit string (the regexes below only capture `\d+`). -/
def digitsToNat (s : Str) : Nat :=
  s.foldl (fun n c => 10 * n + (c.toNat - '0'.toNat)) 0

/-- Python `int(str)` restricted to optional sign plus ASCII digits after
stripping whitespace (the underscore-grouping extension of CPython is not
modelled; the engine only reads numeric settings). -/
def pyToInt (s : Str) : Option Int :=
  match pyStrip s with
  | [] => none
  | c :: rest =>
    if c = '-' then
      if rest ≠ [] ∧ rest.all Char.isDigit then some (-(digitsToNat rest : Int)) else none
    else if c = '+' then
      if rest ≠ [] ∧ rest.all Char.isDigit then some ((digitsToNat rest : Int)) else none
    else
      if (c :: rest).all Char.isDigit then some ((digitsToNat (c :: rest) : Int)) else none

/-- Insert into a sorted list (used to model SQL `ORDER BY`). -/
def insertLe (le : α → α → Bool) (a : α) : List α → List α
  | [] => [a]
  | b :: rest => if le a b then a :: b :: rest else b :: insertLe le a rest

/-- Insertion sort modelling SQL `ORDER BY` (the claims below only use
that sorting permutes its input). -/
def insSort (le : α → α → Bool) : List α → List α
  | [] => []
  | a :: rest => insertLe le a (insSort le rest)

theorem mem_insertLe {le : α → α → Bool} {a x : α} {l : List α} :
    x ∈ insertLe le a l ↔ x = a ∨ x ∈ l := by
  induction l with
  | nil => simp [insertLe]
  | cons b rest ih =>
    simp only [insertLe]
    split
    · simp [or_comm, or_assoc, or_left_comm]
    · simp [ih, or_comm, or_assoc, or_left_comm]

theorem mem_insSort {le : α → α → Bool} {x : α} {l : List α} :
    x ∈ insSort le l ↔ x ∈ l := by
  induction l with
  | nil => simp [insSort]
  | cons a rest ih => simp [insSort, mem_insertLe, ih]

theorem length_insertLe {le : α → α → Bool} {a : α} {l : List α} :
    (insertLe le a l).length = l.length + 1 := by
  induction l with
  | nil => simp [insertLe]
  | cons b rest ih =>
    simp only [insertLe]
    split <;> simp [ih]

theorem length_insSort {le : α → α → Bool} {l : List α} :
    (insSort le l).length = l.length := by
  induction l with
  | nil => rfl
  | cons a rest ih => simp [insSort, length_insertLe, ih]

/-- SQLite `ORDER BY` text comparison (BINARY collation: code-point order,
which coincides with UTF-8 byte order). -/
def strLe : Str → Str → Bool
  | [], _ => true
  | _ :: _, [] => false
  | a :: as, b :: bs => if a = b then strLe as bs else decide (a.toNat ≤ b.toNat)

/-- A row of the `pages` table, with the columns the publisher reads
(`title`, `slug`, `published`, timestamps from the base schema plus the
migrated columns `type`, `excerpt`, `author`, `published_date`,
`featured_png`, `featured_webp`, `is_blog_container`; the publisher's
`'col' in page.keys()` guards are all true on this schema). -/
structure PageRec where
  id : Nat
  title : Option Str
  slug : Str
  ptype : Str
  published : Nat
  excerpt : Option Str
  author : Option Str
  published_date : Option Str
  created_at : Str
  updated_at : Option Str
  featured_png : Option Str
  featured_webp : Option Str
  is_blog_container : Nat
  deriving DecidableEq

/-- A row of the `page_templates` junction table (a block instance). -/
structure BlockInstance where
  id : Nat
  page_id : Nat
  template_id : Nat
  custom_content : Option Str
  use_default : Nat
  sort_order : Int
  deriving DecidableEq

/-- A row of the `page_template_defs` table (a block definition). -/
structure TemplateDef where
  id : Nat
  slug : Str
  content : Option Str
  deriving DecidableEq

/-- A row of the `blog_categories` table as the publisher reads it. -/
structure CategoryRec where
  id : Nat
  title : Option Str
  slug : Str
  sort_order : Int
  deriving DecidableEq

/-- A row of the `page_template_parameters` table. -/
structure ParamRow where
  page_template_id : Nat
  name : Str
  value : Option Str
  deriving DecidableEq

/-- The content store (the SQLite tables the publisher queries). -/
structure Db where
  pages : List PageRec
  settings : List (Str × Str)
  page_templates : List BlockInstance
  template_defs : List TemplateDef
  blog_categories : List CategoryRec
  page_blog_categories : List (Nat × Nat)
  template_params : List ParamRow
  deriving DecidableEq

/-- `SELECT value FROM settings WHERE key = ?` (first matching row). -/
def lookupSetting (db : Db) (key : Str) : Option Str :=
  (db.settings.filter (fun kv => kv.1 == key)).head?.map (fun kv => kv.2)

/-- The `base_url` setting with the publisher's fallback. -/
def baseUrl (db : Db) : Str :=
  (lookupSetting db (toStr "base_url")).getD (toStr "http://localhost:5000")

/-- `SELECT * FROM pages WHERE id = ?` with `fetchone`. -/
def getPage (db : Db) (pid : Nat) : Option PageRec :=
  (db.pages.filter (fun p => p.id == pid)).head?

/-- `SELECT ... FROM pages WHERE type = 'blog' AND published = 1
ORDER BY COALESCE(published_date, created_at) DESC` (the `blog:latest`
query). -/
def publishedBlogPosts (db : Db) : List PageRec :=
  insSort
    (fun a b =>
      strLe (b.published_date.getD b.created_at) (a.published_date.getD a.created_at))
    (db.pages.filter (fun p => p.ptype == toStr "blog" && p.published == 1))

/-- The `blog:category:N` query: `pages JOIN page_blog_categories` on
page id, filtered to `type = 'blog'` and the given category id, ordered
by `created_at DESC`.  No `published` filter appears in the source. -/
def categoryPosts (db : Db) (catId : Nat) : List PageRec :=
  insSort (fun a b => strLe b.created_at a.created_at)
    (db.pages.flatMap (fun p =>
      if p.ptype == toStr "blog" then
        (db.page_blog_categories.filter
          (fun pc => pc.1 == p.id && pc.2 == catId)).map (fun _ => p)
      else []))

/-- `SELECT slug FROM pages WHERE is_blog_container = 1 ORDER BY id LIMIT 1`
with the `'index'` fallback. -/
def containerSlug (db : Db) : Str :=
  match (insSort (fun a b => a.id ≤ b.id)
      (db.pages.filter (fun p => p.is_blog_container == 1))).head? with
  | some p => p.slug
  | none => toStr "index"

/-- `COALESCE(NULLIF(title, ''), slug)` for a category row. -/
def catTitle (c : CategoryRec) : Str :=
  match c.title with
  | none => c.slug
  | some t => if t = [] then c.slug else t

/-- `SELECT ... FROM blog_categories ORDER BY sort_order, title`. -/
def sortedCategories (db : Db) : List CategoryRec :=
  insSort
    (fun a b =>
      if a.sort_order = b.sort_order then strLe (catTitle a) (catTitle b)
      else a.sort_order ≤ b.sort_order)
    db.blog_categories

/-- Block instances of a page with their joined definitions, ordered by
`sort_order` (`JOIN page_template_defs` is an inner join: instances whose
definition row is missing are dropped). -/
def blocksFor (db : Db) (pid : Nat) : List (BlockInstance × TemplateDef) :=
  (insSort (fun a b => a.sort_order ≤ b.sort_order)
      (db.page_templates.filter (fun pt => pt.page_id == pid))).filterMap
    (fun pt =>
      ((db.template_defs.filter (fun t => t.id == pt.template_id)).head?).map
        (fun t => (pt, t)))

/-- Python dict insert-or-update: an existing key keeps its position and
takes the new value; a new key is appended. -/
def dictInsert (k : Str) (v : Option Str) :
    List (Str × Option Str) → List (Str × Option Str)
  | [] => [(k, v)]
  | (k', v') :: rest =>
    if k' = k then (k', v) :: rest else (k', v') :: dictInsert k v rest

/-- `{row['parameter_name']: row['parameter_value'] for row in ...}` over
the parameter rows of one block instance. -/
def paramsFor (db : Db) (ptId : Nat) : List (Str × Option Str) :=
  ((db.template_params.filter (fun r => r.page_template_id == ptId)).map
      (fun r => (r.name, r.value))).foldl
    (fun acc kv => dictInsert kv.1 kv.2 acc) []

/-- `\s*` : drop leading whitespace. -/
def dropWs (s : Str) : Str := s.dropWhile pyIsSpace

/-- Match a literal, returning the remainder. -/
def stripPfx (p s : Str) : Option Str :=
  if p.isPrefixOf s then some (s.drop p.length) else none

/-- Continuation `\s*:[^}]+\s*\}\}` of the parameter pattern when the
optional `:type` group is taken.  `\s*` before `:` and the split of
`[^}]+\s*\}\}` are deterministic: whitespace is not `:` and not a
closing brace, so the joint match runs to the first closing brace, which
must start `\x7d\x7d`. -/
def paramGroupTail (s : Str) : Option Str :=
  match dropWs s with
  | c :: rest =>
    if c = ':' then
      match rest.dropWhile (fun d => d ≠ rb) with
      | d1 :: d2 :: r =>
        if rest.takeWhile (fun d => d ≠ rb) ≠ [] ∧ d1 = rb ∧ d2 = rb then some r
        else none
      | _ => none
    else none
  | [] => none

/-- Continuation `\s*\}\}` of the parameter pattern without the group. -/
def paramCloseTail (s : Str) : Option Str :=
  match dropWs s with
  | d1 :: d2 :: r => if d1 = rb ∧ d2 = rb then some r else none
  | _ => none

/-- Try the parameter pattern after the opening braces with exactly `k`
characters taken by the leading `\s*`: the literal name, then the optional
`:type` group (preferred, as regex `?` is greedy), then `\s*\}\}`. -/
def paramTryAt (name s : Str) (k : Nat) : Option Str :=
  match stripPfx name (s.drop k) with
  | some t2 =>
    match paramGroupTail t2 with
    | some r => some r
    | none => paramCloseTail t2
  | none => none

/-- Backtracking of the leading `\s*`: greedy, so `k` whitespace
characters are tried from the maximal run down to zero. -/
def paramBacktrack (name s : Str) : Nat → Option Str
  | 0 => paramTryAt name s 0
  | k + 1 =>
    match paramTryAt name s (k + 1) with
    | some r => some r
    | none => paramBacktrack name s k

/-- Match of `\{\{\s*name(?:\s*:[^}]+)?\s*\}\}` (the compiled parameter
pattern, `name` inserted via `re.escape` hence literal) at the start of
the input, returning the remainder after the match. -/
def tryMatchParam (name : Str) : Str → Option Str
  | c1 :: c2 :: rest =>
    if c1 = lb ∧ c2 = lb then
      paramBacktrack name rest (rest.takeWhile pyIsSpace).length
    else none
  | _ => none

/-- `re.sub` scan for one parameter pattern: leftmost match, replacement
emitted without rescanning, scan resumes after the match.  Fuelled; every
step consumes at least one input character, so the fuel of
`paramSubName` is sufficient. -/
def paramSubGo (name rep : Str) : Nat → Str → Str
  | 0, s => s
  | _ + 1, [] => []
  | fuel + 1, c :: rest =>
    match tryMatchParam name (c :: rest) with
    | some r => rep ++ paramSubGo name rep fuel r
    | none => c :: paramSubGo name rep fuel rest

/-- `pattern.sub(str(value), content)` for one parameter binding with a
backslash-free value: CPython inserts such a replacement literally (its
fast path).  Values containing `\` go through the replacement-template
semantics of `paramSubFull` below, which agrees with this function on
backslash-free values (`paramSubFull_no_backslash`). -/
def paramSubName (name rep s : Str) : Str := paramSubGo name rep (s.length + 1) s

/-- Lines 354-359 of `publisher.py`: substitute each binding of the
parameter dict in iteration order, each over the previous result, with
the values inserted literally (exact for backslash-free values;
`paramResolveFull` below adds the template/raise semantics for values
containing a backslash). -/
def paramResolve (params : List (Str × Option Str)) (content : Str) : Str :=
  params.foldl (fun c kv => paramSubName kv.1 (pyStr kv.2) c) content

/-- A parsed piece of an `re.sub` string-replacement template for a
pattern with no capturing groups (the parameter pattern's only group is
non-capturing): literal characters and `\g<0>`-style references to the
whole match. -/
inductive TmplPiece where
  | lit (c : Char)
  | group0
  deriving DecidableEq

/-- The exceptions CPython's replacement-template parser can raise
(`re.error` with various messages, and `IndexError` for an unknown group
name).  The classification is coarse — the theorems below only depend on
the raise/return split, which is modelled exactly. -/
inductive ReError where
  | badEscape
  | invalidGroupRef
  | badGroupName
  | octalOutOfRange
  deriving DecidableEq

/-- The replacement-template letter escapes (`\a \b \f \n \r \t \v \\`). -/
def escChar (c : Char) : Option Char :=
  if c = 'a' then some '\x07'
  else if c = 'b' then some '\x08'
  else if c = 'f' then some '\x0c'
  else if c = 'n' then some '\x0a'
  else if c = 'r' then some '\x0d'
  else if c = 't' then some '\x09'
  else if c = 'v' then some '\x0b'
  else if c = '\\' then some '\\'
  else none

/-- ASCII letters, whose unknown escapes raise `bad escape`. -/
def isAsciiLetter (c : Char) : Bool :=
  ('a' ≤ c ∧ c ≤ 'z') ∨ ('A' ≤ c ∧ c ≤ 'Z')

/-- An octal digit. -/
def isOctDigit (c : Char) : Bool := '0' ≤ c ∧ c ≤ '7'

/-- Value of an octal digit string. -/
def octToNat (s : Str) : Nat :=
  s.foldl (fun n c => 8 * n + (c.toNat - '0'.toNat)) 0

/-- CPython's `parse_template` for a pattern with no capturing groups
(fuelled; every step consumes at least one character): `\g<0>`/`\g<00>`
reference the whole match, any other group reference is an
`invalid group reference`, `\0` starts an octal escape of up to three
digits (three-digit forms above `\377` are out of range), other
digit escapes are group references and hence errors, the letter escapes
of `escChar` expand, any other escaped ASCII letter is a `bad escape`
(as is a trailing backslash), and an escaped non-letter is kept
verbatim together with its backslash. -/
def parseTemplateGo : Nat → Str → Except ReError (List TmplPiece)
  | 0, _ => Except.ok []
  | _ + 1, [] => Except.ok []
  | fuel + 1, c :: rest =>
    if c = '\\' then
      match rest with
      | [] => Except.error ReError.badEscape
      | e :: r1 =>
        if e = 'g' then
          match r1 with
          | '<' :: r2 =>
            match r2.dropWhile (fun d => d ≠ '>') with
            | '>' :: r3 =>
              let gname := r2.takeWhile (fun d => d ≠ '>')
              if gname = [] then Except.error ReError.badGroupName
              else if gname.all Char.isDigit then
                if digitsToNat gname = 0 then
                  (parseTemplateGo fuel r3).map (fun ps => TmplPiece.group0 :: ps)
                else Except.error ReError.invalidGroupRef
              else Except.error ReError.badGroupName
            | _ => Except.error ReError.badGroupName
          | _ => Except.error ReError.badGroupName
        else if e = '0' then
          let os := (r1.takeWhile isOctDigit).take 2
          (parseTemplateGo fuel (r1.drop os.length)).map
            (fun ps => TmplPiece.lit (Char.ofNat (octToNat os)) :: ps)
        else if e.isDigit then
          match r1 with
          | d2 :: r2 =>
            if d2.isDigit then
              match r2 with
              | d3 :: r3 =>
                if isOctDigit e ∧ isOctDigit d2 ∧ isOctDigit d3 then
                  if octToNat [e, d2, d3] > 255 then Except.error ReError.octalOutOfRange
                  else
                    (parseTemplateGo fuel r3).map
                      (fun ps => TmplPiece.lit (Char.ofNat (octToNat [e, d2, d3])) :: ps)
                else Except.error ReError.invalidGroupRef
              | [] => Except.error ReError.invalidGroupRef
            else Except.error ReError.invalidGroupRef
          | [] => Except.error ReError.invalidGroupRef
        else
          match escChar e with
          | some ec => (parseTemplateGo fuel r1).map (fun ps => TmplPiece.lit ec :: ps)
          | none =>
            if isAsciiLetter e then Except.error ReError.badEscape
            else
              (parseTemplateGo fuel r1).map
                (fun ps => TmplPiece.lit '\\' :: TmplPiece.lit e :: ps)
    else
      (parseTemplateGo fuel rest).map (fun ps => TmplPiece.lit c :: ps)

/-- `re._compile_repl`: the replacement template is parsed once, before
any scanning — an invalid template raises even when nothing matches. -/
def parseTemplate (rep : Str) : Except ReError (List TmplPiece) :=
  parseTemplateGo (rep.length + 1) rep

/-- Expand a parsed template at one match. -/
def expandTemplate (ps : List TmplPiece) (matched : Str) : Str :=
  ps.flatMap (fun p =>
    match p with
    | TmplPiece.lit c => [c]
    | TmplPiece.group0 => matched)

/-- `re.sub` scan with a parsed replacement template: at each match the
template expands with the matched text as group 0. -/
def paramSubGoT (name : Str) (ps : List TmplPiece) : Nat → Str → Str
  | 0, s => s
  | _ + 1, [] => []
  | fuel + 1, c :: rest =>
    match tryMatchParam name (c :: rest) with
    | some r =>
      expandTemplate ps ((c :: rest).take ((c :: rest).length - r.length)) ++
        paramSubGoT name ps fuel r
    | none => c :: paramSubGoT name ps fuel rest

/-- `pattern.sub(str(value), content)` with CPython's full string-replacement
semantics: parse the template first (raising on an invalid one even with
zero matches), then scan and expand.  On backslash-free values this is
the literal insertion of `paramSubName` (`paramSubFull_no_backslash`). -/
def paramSubFull (name rep s : Str) : Except ReError Str :=
  match parseTemplate rep with
  | Except.error e => Except.error e
  | Except.ok ps => Except.ok (paramSubGoT name ps (s.length + 1) s)

/-- The parameter loop of lines 354-359 with the full `pattern.sub`
semantics: the first invalid replacement template raises. -/
def paramResolveFull (params : List (Str × Option Str)) (content : Str) :
    Except ReError Str :=
  params.foldlM (fun c kv => paramSubFull kv.1 (pyStr kv.2) c) content


/-- `i` of `if` under `re.IGNORECASE`. -/
def ciIsI (c : Char) : Bool := c == 'i' || c == 'I'

/-- `f` of `if` under `re.IGNORECASE`. -/
def ciIsF (c : Char) : Bool := c == 'f' || c == 'F'

/-- Match of the opening part `\{\{\s*if\s+([^}]+)\s*\}\}` of the
conditional pattern at the start of the input: returns the captured
predicate key and the remainder.  `\s+([^}]+)\s*` jointly runs to the
first closing brace (whitespace is not a closing brace), needs at least
two characters the first of which is whitespace, and the greedy `\s+`
leaves at least one character to the capture group. -/
def ifKeyOf (stretch : Str) : Str :=
  stretch.drop (min (stretch.takeWhile pyIsSpace).length (stretch.length - 1))

/-- `\s+([^}]+)\s*\x7d\x7d` after the literal `if`: the joint match runs
to the first closing brace (whitespace is not a closing brace), needs at
least two characters the first of which is whitespace, and the following
two characters must be closing braces; the greedy `\s+` leaves at least
one character to the capture group (`ifKeyOf`). -/
def openIfTail (t2 : Str) : Option (Str × Str) :=
  match t2.takeWhile (fun d => d ≠ rb), t2.dropWhile (fun d => d ≠ rb) with
  | w :: s2 :: srest, d1 :: d2 :: t4 =>
    if pyIsSpace w ∧ d1 = rb ∧ d2 = rb then some (ifKeyOf (w :: s2 :: srest), t4)
    else none
  | _, _ => none

def tryOpenIf : Str → Option (Str × Str)
  | c1 :: c2 :: rest =>
    if c1 = lb ∧ c2 = lb then
      match dropWs rest with
      | i :: f :: t2 => if ciIsI i ∧ ciIsF f then openIfTail t2 else none
      | _ => none
    else none
  | _ => none

/-- Match of the closing tag `\{\{\s*/if\s*\}\}` at the start of the
input, returning the remainder. -/
def tryCloseIf : Str → Option Str
  | c1 :: c2 :: rest =>
    if c1 = lb ∧ c2 = lb then
      match dropWs rest with
      | sl :: i :: f :: t2 =>
        if sl = '/' ∧ ciIsI i ∧ ciIsF f then
          match dropWs t2 with
          | d1 :: d2 :: r => if d1 = rb ∧ d2 = rb then some r else none
          | _ => none
        else none
      | _ => none
    else none
  | _ => none

/-- The non-greedy `(.*?)` followed by the closing tag: the shortest
prefix after which the closing tag matches, with the remainder after the
closing tag. -/
def searchClose : Str → Option (Str × Str)
  | [] => none
  | c :: rest =>
    match tryCloseIf (c :: rest) with
    | some r => some ([], r)
    | none =>
      match searchClose rest with
      | some (b, r) => some (c :: b, r)
      | none => none

/-- `pattern.search` for the conditional pattern: leftmost position where
the opening part matches and a closing tag follows.  Returns
(text before the match, captured key, body, text after the match). -/
def searchIf : Str → Option (Str × Str × Str × Str)
  | [] => none
  | c :: rest =>
    match
      (match tryOpenIf (c :: rest) with
       | some (key, t) => (searchClose t).map (fun br => (key, br.1, br.2))
       | none => none) with
    | some (key, body, after) => some ([], key, body, after)
    | none =>
      match searchIf rest with
      | some (pre, key, body, after) => some (c :: pre, key, body, after)
      | none => none

/-- `_evaluate_condition` of `publisher.py` (lines 44-52): strip and
lower the key; `page:featured` is the truthiness of either featured
variant, `page:excerpt` / `page:title` the truthiness of the stripped
column, anything else false. -/
def evalCondition (page : PageRec) (key : Str) : Bool :=
  let k := lowerStr (pyStrip key)
  if k = toStr "page:featured" then
    pyTruthy page.featured_png || pyTruthy page.featured_webp
  else if k = toStr "page:excerpt" then
    !(pyStrip (orEmpty page.excerpt)).isEmpty
  else if k = toStr "page:title" then
    !(pyStrip (orEmpty page.title)).isEmpty
  else false

/-- The `while True: pattern.search / splice` loop of lines 56-63: replace
the leftmost conditional region by its body or by the empty string and
rescan from the start.  Fuelled; each iteration removes at least the
opening and closing tags, so the fuel of `applyConditionals` is
sufficient. -/
def applyCondLoop (page : PageRec) : Nat → Str → Str
  | 0, s => s
  | fuel + 1, s =>
    match searchIf s with
    | none => s
    | some (pre, key, body, after) =>
      applyCondLoop page fuel
        (pre ++ (if evalCondition page key then body else []) ++ after)

/-- The conditional-evaluation stage of `replace_special_tokens`. -/
def applyConditionals (page : PageRec) (s : Str) : Str :=
  applyCondLoop page (s.length + 1) s

/-- Match of `\{\{\s*blog:category:\[(\d+)\]\s*\}\}` at the start of the
input: the captured digits (as the `int(...)` value) and the remainder. -/
def tryMatchCatBr : Str → Option (Nat × Str)
  | c1 :: c2 :: rest =>
    if c1 = lb ∧ c2 = lb then
      match stripPfx (toStr "blog:category:[") (dropWs rest) with
      | some t =>
        match t.dropWhile Char.isDigit with
        | ']' :: t2 =>
          if t.takeWhile Char.isDigit ≠ [] then
            match dropWs t2 with
            | d1 :: d2 :: r =>
              if d1 = rb ∧ d2 = rb then
                some (digitsToNat (t.takeWhile Char.isDigit), r)
              else none
            | _ => none
          else none
        | _ => none
      | none => none
    else none
  | _ => none

/-- Match of `\{\{\s*blog:category:(\d+)\s*\}\}` at the start of the
input. -/
def tryMatchCatPlain : Str → Option (Nat × Str)
  | c1 :: c2 :: rest =>
    if c1 = lb ∧ c2 = lb then
      match stripPfx (toStr "blog:category:") (dropWs rest) with
      | some t =>
        if t.takeWhile Char.isDigit ≠ [] then
          match dropWs (t.dropWhile Char.isDigit) with
          | d1 :: d2 :: r =>
            if d1 = rb ∧ d2 = rb then
              some (digitsToNat (t.takeWhile Char.isDigit), r)
            else none
          | _ => none
        else none
      | none => none
    else none
  | _ => none

/-- `re.sub` scan for a category pattern, replacing each match by the
listing for the captured id. -/
def catSubGo (m : Str → Option (Nat × Str)) (repl : Nat → Str) :
    Nat → Str → Str
  | 0, s => s
  | _ + 1, [] => []
  | fuel + 1, c :: rest =>
    match m (c :: rest) with
    | some (n, r) => repl n ++ catSubGo m repl fuel r
    | none => c :: catSubGo m repl fuel rest

/-- `re.sub` over the whole input for a category pattern. -/
def catSub (m : Str → Option (Nat × Str)) (repl : Nat → Str) (s : Str) : Str :=
  catSubGo m repl (s.length + 1) s

/-- `_build_media_url` (lines 83-88): empty path stays empty, an absolute
URL (scheme prefix, case-insensitive) passes through, otherwise the base
URL is prepended. -/
def buildMediaUrl (bu path : Str) : Str :=
  if path = [] then []
  else if (toStr "http://").isPrefixOf (lowerStr path) ∨
      (toStr "https://").isPrefixOf (lowerStr path) then path
  else bu ++ path

/-- The featured-image `<img>` markup of lines 175/178. -/
def imgTag (bu path title : Str) : Str :=
  toStr "<img src=\"" ++ bu ++ path ++ toStr "\" alt=\"" ++ title ++
    toStr "\" class=\"blog-featured-image\" style=\"max-width: 200px; height: auto; margin-bottom: 8px;\">"

/-- `\x7b\x7bblog:categories\x7d\x7d` markup (lines 103-124). -/
def blogCategoriesHtml (db : Db) (bu : Str) : Str :=
  let cats := sortedCategories db
  if cats.isEmpty then toStr "<ul></ul>"
  else
    toStr "<ul>" ++
      (cats.map (fun c =>
        toStr "<li><a href=\"" ++ bu ++ toStr "/" ++ containerSlug db ++
          toStr ".html?category=" ++ c.slug ++ toStr "\">" ++ catTitle c ++
          toStr "</a></li>")).flatten ++
      toStr "</ul>"

/-- `_replace_category_posts` (lines 302-325) applied to a captured
category id.  The `except` branch returning the empty string is
unreachable through the digit-only capture groups, so the result is
always a `<ul>` listing. -/
def categoryListingHtml (db : Db) (bu : Str) (catId : Nat) : Str :=
  let posts := categoryPosts db catId
  if posts.isEmpty then toStr "<ul></ul>"
  else
    toStr "<ul>" ++
      (posts.map (fun r =>
        toStr "<li><a href=\"" ++ bu ++ toStr "/blog/" ++ r.slug ++
          toStr ".html\">" ++ pyStr r.title ++ toStr "</a></li>")).flatten ++
      toStr "</ul>"

/-- The `pagination_html` f-string of lines 218-292 (literal text with the
embedded page-size, total-page and total-post numbers; `\x7b`/`\x7d` are
braces, `\x27` apostrophes, `\x60` backticks). -/
def paginationHtml (postsHtml : Str) (totalPages totalPosts app : Nat) : Str :=
  toStr "\n                <div class=\"blog-pagination-container\">\n                    " ++
  postsHtml ++
  toStr "\n                    <nav aria-label=\"Blog pagination\" class=\"mt-4\">\n                        <ul class=\"pagination justify-content-center\" id=\"blog-pagination\">\n                            <li class=\"page-item disabled\" id=\"prev-btn\">\n                                <a class=\"page-link\" href=\"#\" tabindex=\"-1\" aria-disabled=\"true\">Previous</a>\n                            </li>\n                            <li class=\"page-item disabled\" id=\"next-btn\">\n                                <a class=\"page-link\" href=\"#\">Next</a>\n                            </li>\n                        </ul>\n                        <div class=\"text-center mt-2\">\n                            <small class=\"text-muted\" id=\"pagination-info\">Page 1 of " ++
  toStr (Nat.repr totalPages) ++
  toStr " (" ++
  toStr (Nat.repr totalPosts) ++
  toStr " articles)</small>\n                        </div>\n                    </nav>\n                </div>\n                <script>\n                document.addEventListener(\x27DOMContentLoaded\x27, function() \x7b\n                    const itemsPerPage = " ++
  toStr (Nat.repr app) ++
  toStr ";\n                    const totalItems = " ++
  toStr (Nat.repr totalPosts) ++
  toStr ";\n                    const totalPages = " ++
  toStr (Nat.repr totalPages) ++
  toStr ";\n                    let currentPage = 1;\n                    \n                    const blogList = document.getElementById(\x27blog-latest-list\x27);\n                    const prevBtn = document.getElementById(\x27prev-btn\x27);\n                    const nextBtn = document.getElementById(\x27next-btn\x27);\n                    const paginationInfo = document.getElementById(\x27pagination-info\x27);\n                    \n                    if (!blogList || totalPages <= 1) \x7b\n                        // Hide pagination if not needed\n                        document.querySelector(\x27.blog-pagination-container nav\x27).style.display = \x27none\x27;\n                        return;\n                    \x7d\n                    \n                    const allItems = Array.from(blogList.children);\n                    \n                    function showPage(page) \x7b\n                        const startIndex = (page - 1) * itemsPerPage;\n                        const endIndex = Math.min(startIndex + itemsPerPage, totalItems);\n                        \n                        // Hide all items\n                        allItems.forEach(item => item.style.display = \x27none\x27);\n                        \n                        // Show items for current page\n                        for (let i = startIndex; i < endIndex; i++) \x7b\n                            if (allItems[i]) allItems[i].style.display = \x27block\x27;\n                        \x7d\n                        \n                        // Update pagination buttons\n                        prevBtn.classList.toggle(\x27disabled\x27, page === 1);\n                        nextBtn.classList.toggle(\x27disabled\x27, page === totalPages);\n                        \n                        // Update pagination info\n                        paginationInfo.textContent = \x60Page $\x7bpage\x7d of $\x7btotalPages\x7d ($\x7btotalItems\x7d articles)\x60;\n                        \n                        currentPage = page;\n                    \x7d\n                    \n                    // Event listeners\n                    prevBtn.addEventListener(\x27click\x27, function(e) \x7b\n                        e.preventDefault();\n                        if (currentPage > 1) showPage(currentPage - 1);\n                    \x7d);\n                    \n                    nextBtn.addEventListener(\x27click\x27, function(e) \x7b\n                        e.preventDefault();\n                        if (currentPage < totalPages) showPage(currentPage + 1);\n                    \x7d);\n                    \n                    // Initialize\n                    showPage(1);\n                \x7d);\n                </script>\n                "

/-- The `\x7bitems\x7d` placeholder of the legacy listing template. -/
def phItems : Str := toStr "\x7bitems\x7d"

/-- The fallback `blog_latest_template` value (line 135). -/
def defaultBlogTmpl : Str := toStr "<ul class=\"blog-latest\">\n\x7bitems\x7d\n</ul>"

/-- Lines 137-145: parse the `blog_articles_per_page` setting (fallback
20 when the row is missing or `int()` raises) and clamp to a minimum
of 1.  This is the page size embedded into the pagination script. -/
def blogLatestApp (db : Db) : Nat :=
  let app : Int :=
    match lookupSetting db (toStr "blog_articles_per_page") with
    | none => 20
    | some v => (pyToInt v).getD 20
  if app < 1 then 1 else app.toNat

/-- Line 207: `total_pages = (total_posts + articles_per_page - 1) //
articles_per_page`, the page count embedded into the pagination markup. -/
def blogLatestTotalPages (db : Db) : Nat :=
  ((publishedBlogPosts db).length + blogLatestApp db - 1) / blogLatestApp db

/-- `\x7b\x7b key \x7d\x7d` (spaced double-brace item placeholder). -/
def phSpaced (k : Str) : Str := lb :: lb :: ' ' :: (k ++ [' ', rb, rb])

/-- `\x7b\x7bkey\x7d\x7d` (double-brace item placeholder). -/
def phDouble (k : Str) : Str := lb :: lb :: (k ++ [rb, rb])

/-- `\x7bkey\x7d` (single-brace item placeholder). -/
def phSingle (k : Str) : Str := lb :: (k ++ [rb])

/-- Lines 197-202: replace the three placeholder spellings of one item
attribute, double-brace forms first. -/
def substPh (h : Str) (kv : Str × Str) : Str :=
  replaceAll (phSingle kv.1) kv.2
    (replaceAll (phDouble kv.1) kv.2 (replaceAll (phSpaced kv.1) kv.2 h))

/-- One `\x7b\x7bblog:latest\x7d\x7d` list item (lines 158-203): the
attribute dict in its insertion order, substituted into the operator
template. -/
def blogItemHtml (bu tmpl : Str) (r : PageRec) : Str :=
  let title := if pyTruthy r.title then orEmpty r.title else r.slug
  let pexcerpt := pyStrip (orEmpty r.excerpt)
  let pauthor := if pyTruthy r.author then orEmpty r.author else []
  let pdate := if pyTruthy r.published_date then orEmpty r.published_date else []
  let fpng := if pyTruthy r.featured_png then orEmpty r.featured_png else []
  let fwebp := if pyTruthy r.featured_webp then orEmpty r.featured_webp else []
  let href := bu ++ toStr "/blog/" ++ r.slug ++ toStr ".html"
  let fimg :=
    if fpng ≠ [] then imgTag bu fpng title
    else if fwebp ≠ [] then imgTag bu fwebp title
    else []
  let metaParts :=
    (if pauthor ≠ [] then
      [toStr "<span class=\"blog-author\">By " ++ pauthor ++ toStr "</span>"]
     else []) ++
    (if pdate ≠ [] then
      [toStr "<span class=\"blog-date\">" ++ pdate ++ toStr "</span>"]
     else [])
  let metaHtml :=
    if metaParts ≠ [] then
      toStr "<div class=\"blog-meta\">" ++ List.intercalate (toStr " | ") metaParts ++
        toStr "</div>"
    else []
  [(toStr "title", title), (toStr "slug", r.slug), (toStr "href", href),
    (toStr "excerpt", pexcerpt), (toStr "author", pauthor),
    (toStr "published_date", pdate), (toStr "featured_png", fpng),
    (toStr "featured_webp", fwebp), (toStr "featured_image", fimg),
    (toStr "metadata", metaHtml), (toStr "base_url", bu)].foldl substPh tmpl

/-- `\x7b\x7bblog:latest\x7d\x7d` markup (lines 127-298): the empty shell
when no published blog post exists, otherwise all items rendered into one
list wrapped with the pagination markup and script. -/
def blogLatestHtml (db : Db) : Str :=
  let bu := baseUrl db
  let tmpl := (lookupSetting db (toStr "blog_latest_template")).getD defaultBlogTmpl
  let posts := publishedBlogPosts db
  if posts.isEmpty then toStr "<ul class=\"blog-latest\"></ul>"
  else
    let items := posts.map (blogItemHtml bu tmpl)
    let joined := items.flatten
    let postsHtml :=
      if containsSub phItems tmpl then replaceAll phItems joined tmpl
      else toStr "<ul class=\"blog-latest\" id=\"blog-latest-list\">" ++ joined ++
        toStr "</ul>"
    paginationHtml postsHtml (blogLatestTotalPages db) posts.length (blogLatestApp db)

/-- `\x7b\x7bpage:title\x7d\x7d`. -/
def tokPageTitle : Str := toStr "\x7b\x7bpage:title\x7d\x7d"

/-- `\x7b\x7bpage:excerpt\x7d\x7d`. -/
def tokPageExcerpt : Str := toStr "\x7b\x7bpage:excerpt\x7d\x7d"

/-- `\x7b\x7bpage:featured:png\x7d\x7d`. -/
def tokFeatPng : Str := toStr "\x7b\x7bpage:featured:png\x7d\x7d"

/-- `\x7b\x7bpage:featured:webp\x7d\x7d`. -/
def tokFeatWebp : Str := toStr "\x7b\x7bpage:featured:webp\x7d\x7d"

/-- `\x7b\x7bconfig:base_url\x7d\x7d`. -/
def tokConfigBase : Str := toStr "\x7b\x7bconfig:base_url\x7d\x7d"

/-- `\x7b\x7bblog:categories\x7d\x7d`. -/
def tokBlogCats : Str := toStr "\x7b\x7bblog:categories\x7d\x7d"

/-- `\x7b\x7bblog:latest\x7d\x7d`. -/
def tokBlogLatest : Str := toStr "\x7b\x7bblog:latest\x7d\x7d"

/-- The opening-brace token marker `\x7b\x7b`. -/
def obrace : Str := [lb, lb]

/-- Lines 65-331 of `replace_special_tokens` after the conditional loop:
page tokens, config token, blog listings (each guarded by a presence
check before any store access) and the two category-token passes. -/
def reservedResolve (page : PageRec) (db : Db) (s : Str) : Str :=
  let bu := baseUrl db
  let c1 := replaceAll tokPageTitle (orEmpty page.title) s
  let c2 := replaceAll tokPageExcerpt (orEmpty page.excerpt) c1
  let fpng := if pyTruthy page.featured_png then orEmpty page.featured_png else []
  let fwebp := if pyTruthy page.featured_webp then orEmpty page.featured_webp else []
  let c3 := replaceAll tokFeatPng (buildMediaUrl bu fpng) c2
  let c4 := replaceAll tokFeatWebp (buildMediaUrl bu fwebp) c3
  let c5 := if containsSub tokConfigBase c4 then replaceAll tokConfigBase bu c4 else c4
  let c6 :=
    if containsSub tokBlogCats c5 then replaceAll tokBlogCats (blogCategoriesHtml db bu) c5
    else c5
  let c7 :=
    if containsSub tokBlogLatest c6 then replaceAll tokBlogLatest (blogLatestHtml db) c6
    else c6
  let c8 := catSub tryMatchCatBr (categoryListingHtml db bu) c7
  catSub tryMatchCatPlain (categoryListingHtml db bu) c8

/-- `replace_special_tokens` (lines 35-332): identity on falsy or
marker-free content, otherwise the conditional loop followed by the
reserved-token replacements. -/
def replaceSpecialTokens (page : PageRec) (db : Db) (raw : Str) : Str :=
  if raw.isEmpty || !containsSub obrace raw then raw
  else reservedResolve page db (applyConditionals page raw)

/-- Lines 352-361: for one block's selected content, if it contains the
marker run the user-parameter substitutions first and
`replace_special_tokens` second. -/
def resolveBlockContent (page : PageRec) (db : Db)
    (params : List (Str × Option Str)) (s : Str) : Str :=
  if containsSub obrace s then replaceSpecialTokens page db (paramResolve params s)
  else s

/-- The stage order asserted by the specification (§4.4): Conditional
Evaluator, then Parameter Resolver, then Reserved Token Resolver.  This
definition follows the spec's words and exists only to be compared with
`resolveBlockContent`, the order the code implements. -/
def specOrderResolve (page : PageRec) (db : Db)
    (params : List (Str × Option Str)) (s : Str) : Str :=
  if containsSub obrace s then
    reservedResolve page db (paramResolve params (applyConditionals page s))
  else s

/-- Failure modes of `generate_page_html`: the `("Page not found", 404)`
tuple, the `TypeError` from concatenating `None` content, and an `OSError`
from the output-file write. -/
inductive GenErr where
  | notFound
  | typeErr
  | writeFail
  deriving DecidableEq

instance {ε α : Type} [DecidableEq ε] [DecidableEq α] : DecidableEq (Except ε α) := fun a b =>
  match a, b with
  | Except.ok x, Except.ok y => decidable_of_iff (x = y) (by simp)
  | Except.error x, Except.error y => decidable_of_iff (x = y) (by simp)
  | Except.ok _, Except.error _ => isFalse (by simp)
  | Except.error _, Except.ok _ => isFalse (by simp)

/-- Observable outcome of one `generate_page_html` call: its return value
or raised error, and the list of (path, content) filesystem writes it
performed. -/
structure GenOut where
  result : Except GenErr Str
  writes : List (Str × Str)
  deriving DecidableEq

/-- Line 338-341: the content selected by the `use_default` flag. -/
def selectContent (pt : BlockInstance) (td : TemplateDef) : Option Str :=
  if pt.use_default ≠ 0 then td.content else pt.custom_content

/-- The block loop of lines 335-363: resolve each block in order and
concatenate; `html_content += None` raises `TypeError` at the first block
whose selected content is NULL. -/
def composeBlocks (db : Db) (page : PageRec) (pid : Nat) : Except GenErr Str :=
  (blocksFor db pid).foldlM
    (fun acc x =>
      match selectContent x.1 x.2 with
      | none => Except.error GenErr.typeErr
      | some s =>
        Except.ok (acc ++ resolveBlockContent page db (paramsFor db x.1.id) s))
    []

/-- `PUB_DIR` of `cms/db.py`. -/
def pubDir : Str := toStr "pub"

/-- `generate_page_html(page_id, preview)` (lines 12-382).  `wfail` models
the filesystem: a path on which the publish-mode `open(...).write` raises.
Preview mode returns the composed string with no write; publish mode
writes `pub/<slug>.html` (`pub/blog/<slug>.html` for blog pages) and
returns the path. -/
def generatePageHtml (db : Db) (wfail : Str → Bool) (pid : Nat)
    (preview : Bool) : GenOut :=
  match getPage db pid with
  | none => ⟨Except.error GenErr.notFound, []⟩
  | some page =>
    match composeBlocks db page pid with
    | Except.error e => ⟨Except.error e, []⟩
    | Except.ok html =>
      if preview then ⟨Except.ok html, []⟩
      else
        let path :=
          if page.ptype = toStr "blog" then
            pubDir ++ toStr "/blog/" ++ page.slug ++ toStr ".html"
          else pubDir ++ toStr "/" ++ page.slug ++ toStr ".html"
        if wfail path then ⟨Except.error GenErr.writeFail, []⟩
        else ⟨Except.ok path, [(path, html)]⟩

/-- `UPDATE pages SET published = 1 WHERE id = ?`. -/
def setPublished (db : Db) (pid : Nat) : Db :=
  { db with
    pages := db.pages.map (fun p => if p.id == pid then { p with published := 1 } else p) }

/-- `publish_page` of `cms/views/pages.py` (lines 1193-1204) restricted to
its effect on the store: run `generate_page_html(page_id)`; only on a
string result (`isinstance(result, str)`) set `published = 1`.  On the
not-found tuple the update is skipped; a raised `TypeError`/`OSError`
propagates before the update statement runs. -/
def publishPage (db : Db) (wfail : Str → Bool) (pid : Nat) : Db :=
  match (generatePageHtml db wfail pid false).result with
  | Except.ok _ => setPublished db pid
  | Except.error _ => db


theorem mem_publishedBlogPosts {db : Db} {p : PageRec} :
    p ∈ publishedBlogPosts db ↔
      p ∈ db.pages ∧ p.ptype = toStr "blog" ∧ p.published = 1 := by
  simp [publishedBlogPosts, mem_insSort, List.mem_filter, and_assoc]

theorem mem_categoryPosts {db : Db} {catId : Nat} {p : PageRec} :
    p ∈ categoryPosts db catId ↔
      p ∈ db.pages ∧ p.ptype = toStr "blog" ∧
        (p.id, catId) ∈ db.page_blog_categories := by
  simp only [categoryPosts, mem_insSort, List.mem_flatMap]
  constructor
  · rintro ⟨q, hq, hmem⟩
    by_cases h : q.ptype = toStr "blog"
    · simp only [h, beq_self_eq_true, if_true, List.mem_map, List.mem_filter] at hmem
      obtain ⟨pc, ⟨hpc, hcond⟩, rfl⟩ := hmem
      simp only [Bool.and_eq_true, beq_iff_eq] at hcond
      refine ⟨hq, h, ?_⟩
      have : pc = (q.id, catId) := Prod.ext hcond.1 hcond.2
      rwa [this] at hpc
    · simp [h] at hmem
  · rintro ⟨hp, ht, hassoc⟩
    refine ⟨p, hp, ?_⟩
    simp only [ht, beq_self_eq_true, if_true, List.mem_map, List.mem_filter]
    refine ⟨(p.id, catId), ⟨hassoc, ?_⟩, ?_⟩ <;> simp

/-- C10: for every category id, the `blog:category:N` listing query
includes every blog page associated with the category regardless of its
`published` flag, while the `blog:latest` query includes only pages with
`published = 1`. -/
theorem c10_category_ignores_published_latest_does_not :
    ∀ (db : Db) (catId : Nat) (p : PageRec),
      (p ∈ categoryPosts db catId ↔
        p ∈ db.pages ∧ p.ptype = toStr "blog" ∧
          (p.id, catId) ∈ db.page_blog_categories) ∧
      (p ∈ publishedBlogPosts db → p.published = 1) := by
  intro db catId p
  exact ⟨mem_categoryPosts, fun h => (mem_publishedBlogPosts.mp h).2.2⟩

/-- An unpublished draft blog page listed by the category query. -/
def draftPost : PageRec :=
  ⟨21, some (toStr "Draft"), toStr "draft", toStr "blog", 0, none, none, none,
    toStr "2024-01-01", none, none, none, 0⟩

/-- Store with one unpublished blog page mapped to category 5. -/
def dbDraft : Db := ⟨[draftPost], [], [], [], [], [(21, 5)], []⟩

theorem c10_witness :
    draftPost ∈ categoryPosts dbDraft 5 ∧ draftPost.published = 0 :=
  ⟨(c10_category_ignores_published_latest_does_not dbDraft 5 draftPost).1.mpr
      (by constructor
          · decide
          · exact ⟨rfl, by decide⟩),
    rfl⟩

/-- C3: preview mode performs no filesystem write, and when publish mode
succeeds it writes exactly one file whose content is the preview output
for the same store state. -/
theorem c3_preview_pure_publish_writes_preview :
    ∀ (db : Db) (wfail : Str → Bool) (pid : Nat),
      (generatePageHtml db wfail pid true).writes = [] ∧
      (∀ fn, (generatePageHtml db wfail pid false).result = Except.ok fn →
        ∃ c, (generatePageHtml db wfail pid true).result = Except.ok c ∧
          (generatePageHtml db wfail pid false).writes = [(fn, c)]) := by
  intro db wfail pid
  cases hp : getPage db pid with
  | none => simp [generatePageHtml, hp]
  | some page =>
    cases hc : composeBlocks db page pid with
    | error e => simp [generatePageHtml, hp, hc]
    | ok html =>
      constructor
      · simp [generatePageHtml, hp, hc]
      · intro fn hfn
        simp [generatePageHtml, hp, hc] at hfn ⊢
        by_cases ht : page.ptype = toStr "blog" <;>
          simp only [ht, if_true, if_false, Bool.false_eq_true] at hfn ⊢ <;>
          split at hfn <;>
          simp_all

/-- C4: `publish_page` flips `published` to 1 only when
`generate_page_html` returned a written file's path; on the not-found
tuple, a `TypeError`, or a write failure the store is unchanged. -/
theorem c4_flag_only_after_successful_write :
    ∀ (db : Db) (wfail : Str → Bool) (pid : Nat),
      (∀ e, (generatePageHtml db wfail pid false).result = Except.error e →
        publishPage db wfail pid = db) ∧
      (∀ fn, (generatePageHtml db wfail pid false).result = Except.ok fn →
        publishPage db wfail pid = setPublished db pid ∧
          ∃ c, (generatePageHtml db wfail pid false).writes = [(fn, c)]) := by
  intro db wfail pid
  constructor
  · intro e he
    unfold publishPage
    rw [he]
  · intro fn hfn
    refine ⟨by unfold publishPage; rw [hfn], ?_⟩
    revert hfn
    cases hp : getPage db pid with
    | none => simp [generatePageHtml, hp]
    | some page =>
      cases hc : composeBlocks db page pid with
      | error e => simp [generatePageHtml, hp, hc]
      | ok html =>
        intro hfn
        simp [generatePageHtml, hp, hc] at hfn ⊢
        by_cases ht : page.ptype = toStr "blog" <;>
          simp only [ht, if_true, if_false, Bool.false_eq_true] at hfn ⊢ <;>
          split at hfn <;>
          simp_all

theorem composeBlocks_error_of_none {l : List (BlockInstance × TemplateDef)}
    {db : Db} {page : PageRec} (acc : Str)
    (h : ∃ x ∈ l, selectContent x.1 x.2 = none) :
    (l.foldlM
      (fun acc x =>
        match selectContent x.1 x.2 with
        | none => Except.error GenErr.typeErr
        | some s =>
          Except.ok (acc ++ resolveBlockContent page db (paramsFor db x.1.id) s))
      acc : Except GenErr Str) = Except.error GenErr.typeErr := by
  induction l generalizing acc with
  | nil => simp at h
  | cons y l ih =>
    obtain ⟨x, hx, hsel⟩ := h
    rcases List.mem_cons.mp hx with rfl | hx
    · simp only [List.foldlM, hsel]
      rfl
    · cases hy : selectContent y.1 y.2 with
      | none =>
        simp only [List.foldlM, hy]
        rfl
      | some s =>
        simp only [List.foldlM, hy]
        exact ih _ ⟨x, hx, hsel⟩

/-- C9: a block instance with `use_default = 0` and NULL override content
makes `generate_page_html` raise `TypeError` in both preview and publish
mode, with no file written. -/
theorem c9_null_override_raises :
    ∀ (db : Db) (wfail : Str → Bool) (pid : Nat) (preview : Bool) (page : PageRec),
      getPage db pid = some page →
      (∃ x ∈ blocksFor db pid, x.1.use_default = 0 ∧ x.1.custom_content = none) →
      (generatePageHtml db wfail pid preview).result = Except.error GenErr.typeErr ∧
        (generatePageHtml db wfail pid preview).writes = [] := by
  intro db wfail pid preview page hpage hbad
  have hsel : ∃ x ∈ blocksFor db pid, selectContent x.1 x.2 = none := by
    obtain ⟨x, hx, hud, hcc⟩ := hbad
    exact ⟨x, hx, by simp [selectContent, hud, hcc]⟩
  have hcomp : composeBlocks db page pid = Except.error GenErr.typeErr :=
    composeBlocks_error_of_none [] hsel
  simp [generatePageHtml, hpage, hcomp]

/-- Page used by the publish witnesses. -/
def wPage : PageRec :=
  ⟨1, some (toStr "Home"), toStr "home", toStr "page", 0, none, none, none,
    toStr "2024", none, none, none, 0⟩

/-- Store with one default-content block on page 1. -/
def wDb : Db :=
  ⟨[wPage], [], [⟨9, 1, 5, none, 1, 0⟩],
    [⟨5, toStr "blk", some (toStr "Hello")⟩], [], [], []⟩

/-- A filesystem on which every write succeeds. -/
def wNoFail : Str → Bool := fun _ => false

theorem c3_witness :
    ∃ c, (generatePageHtml wDb wNoFail 1 true).result = Except.ok c ∧
      (generatePageHtml wDb wNoFail 1 false).writes = [(toStr "pub/home.html", c)] :=
  (c3_preview_pure_publish_writes_preview wDb wNoFail 1).2 (toStr "pub/home.html")
    (by decide)

theorem c4_witness : publishPage wDb wNoFail 99 = wDb :=
  (c4_flag_only_after_successful_write wDb wNoFail 99).1 GenErr.notFound (by decide)

/-- Store whose only block has `use_default = 0` and NULL override. -/
def wBadDb : Db :=
  ⟨[wPage], [], [⟨9, 1, 5, none, 0, 0⟩],
    [⟨5, toStr "blk", some (toStr "Hello")⟩], [], [], []⟩

theorem c9_witness :
    (generatePageHtml wBadDb wNoFail 1 true).result = Except.error GenErr.typeErr ∧
      (generatePageHtml wBadDb wNoFail 1 true).writes = [] :=
  c9_null_override_raises wBadDb wNoFail 1 true wPage (by decide)
    ⟨(⟨9, 1, 5, none, 0, 0⟩, ⟨5, toStr "blk", some (toStr "Hello")⟩),
      by decide, rfl, rfl⟩

/-- Page used by the counterexample stores. -/
def cePage : PageRec :=
  ⟨2, some (toStr "T"), toStr "t", toStr "page", 0, none, none, none,
    toStr "2024", none, none, none, 0⟩

/-- Minimal store for the counterexamples. -/
def ceDb : Db := ⟨[cePage], [(toStr "base_url", toStr "http://x")], [], [], [], [], []⟩

/-- C1 counterexample: on the block content `\x7b\x7b a \x7d\x7dY\x7b\x7b/if\x7d\x7d`
with the parameter `a` bound to `\x7b\x7bif z\x7d\x7d`, the code's pipeline
(parameters first) produces the empty string, while the claimed pipeline
(conditionals first) leaves the injected region unresolved: the stage
order of the claim does not match the code. -/
theorem c1_counterexample :
    resolveBlockContent cePage ceDb [(toStr "a", some (toStr "\x7b\x7bif z\x7d\x7d"))]
        (toStr "\x7b\x7b a \x7d\x7dY\x7b\x7b/if\x7d\x7d") = [] ∧
    specOrderResolve cePage ceDb [(toStr "a", some (toStr "\x7b\x7bif z\x7d\x7d"))]
        (toStr "\x7b\x7b a \x7d\x7dY\x7b\x7b/if\x7d\x7d") =
      toStr "\x7b\x7bif z\x7d\x7dY\x7b\x7b/if\x7d\x7d" ∧
    resolveBlockContent cePage ceDb [(toStr "a", some (toStr "\x7b\x7bif z\x7d\x7d"))]
        (toStr "\x7b\x7b a \x7d\x7dY\x7b\x7b/if\x7d\x7d") ≠
      specOrderResolve cePage ceDb [(toStr "a", some (toStr "\x7b\x7bif z\x7d\x7d"))]
        (toStr "\x7b\x7b a \x7d\x7dY\x7b\x7b/if\x7d\x7d") := by
  refine ⟨by decide, by decide, by decide⟩

set_option maxHeartbeats 1600000 in
/-- C1 amended: the composer runs Parameter Resolver first, then
Conditional Evaluator, then Reserved Token Resolver.  Consequently
(i) a parameter value can inject a conditional region that is then
evaluated — content gated by the injected false predicate is erased after
having undergone parameter substitution — and (ii) reserved-token
resolution still runs after conditional evaluation, so a reserved token
inside a false conditional is never resolved. -/
theorem c1_amended_param_cond_reserved_order :
    (∀ (page : PageRec) (db : Db) (params : List (Str × Option Str)) (s : Str),
      containsSub obrace s = true →
      resolveBlockContent page db params s =
        replaceSpecialTokens page db (paramResolve params s)) ∧
    (∀ (page : PageRec) (db : Db),
      resolveBlockContent page db [(toStr "a", some (toStr "\x7b\x7bif z\x7d\x7d"))]
        (toStr "\x7b\x7b a \x7d\x7dEXPENSIVE\x7b\x7b/if\x7d\x7d") = []) ∧
    (∀ (page : PageRec) (db : Db),
      resolveBlockContent page db []
        (toStr "\x7b\x7bif z\x7d\x7d\x7b\x7bblog:latest\x7d\x7d\x7b\x7b/if\x7d\x7d") = []) := by
  refine ⟨?_, ?_, ?_⟩
  · intro page db params s h
    simp [resolveBlockContent, h]
  · intro page db
    rfl
  · intro page db
    rfl

set_option maxHeartbeats 1600000 in
theorem c1_amended_witness :
    containsSub obrace (toStr "\x7b\x7bx\x7d\x7d") = true ∧
    resolveBlockContent cePage ceDb [] (toStr "\x7b\x7bx\x7d\x7d") =
      replaceSpecialTokens cePage ceDb (paramResolve [] (toStr "\x7b\x7bx\x7d\x7d")) :=
  ⟨by decide,
    c1_amended_param_cond_reserved_order.1 cePage ceDb [] (toStr "\x7b\x7bx\x7d\x7d")
      (by decide)⟩

/-- C2 counterexample: a parameter named `page` with value `X` rewrites
the reserved token `\x7b\x7bpage:title\x7d\x7d` to `X` (under the full
`pattern.sub` replacement semantics of `paramResolveFull`). -/
theorem c2_counterexample :
    paramResolveFull [(toStr "page", some (toStr "X"))] tokPageTitle =
      Except.ok (toStr "X") ∧
    paramResolveFull [(toStr "page", some (toStr "X"))] tokPageTitle ≠
      Except.ok tokPageTitle := by
  refine ⟨by decide, by decide⟩

theorem ceilDivBounds {N A : Nat} (hA : 1 ≤ A) (hN : 1 ≤ N) :
    N ≤ (N + A - 1) / A * A ∧ A * ((N + A - 1) / A - 1) < N := by
  obtain ⟨B, rfl⟩ : ∃ B, A = B + 1 := ⟨A - 1, by omega⟩
  have hrw : N + (B + 1) - 1 = N + B := by omega
  rw [hrw]
  have hdm := Nat.div_add_mod (N + B) (B + 1)
  have hmod : (N + B) % (B + 1) < B + 1 := Nat.mod_lt _ (by omega)
  rcases he : (N + B) / (B + 1) with _ | k
  · rw [he] at hdm
    omega
  · rw [he] at hdm
    rw [Nat.mul_succ] at hdm
    have hms : (k + 1) * (B + 1) = (B + 1) * k + (B + 1) := by ring
    have hsub : (B + 1) * (k + 1 - 1) = (B + 1) * k := by
      rw [Nat.add_sub_cancel]
    rw [hms, hsub]
    generalize (B + 1) * k = m at hdm ⊢
    omega

/-- C7: with the `blog_articles_per_page` setting parsing to the integer
P and at least one published blog post, the page size embedded in the
`blog:latest` pagination script is P clamped below by 1, and the embedded
total page count is the ceiling of N divided by that page size (the least
page count covering all N items). -/
theorem c7_page_size_clamped_and_total_is_ceiling :
    ∀ (db : Db) (v : Str) (P : Int),
      lookupSetting db (toStr "blog_articles_per_page") = some v →
      pyToInt v = some P →
      1 ≤ (publishedBlogPosts db).length →
      blogLatestApp db = (max P 1).toNat ∧
      (publishedBlogPosts db).length ≤ blogLatestTotalPages db * blogLatestApp db ∧
      blogLatestApp db * (blogLatestTotalPages db - 1) <
        (publishedBlogPosts db).length := by
  intro db v P hv hP hN
  have happ : blogLatestApp db = (max P 1).toNat := by
    simp only [blogLatestApp, hv, hP, Option.getD_some]
    rcases lt_or_le P 1 with h | h
    · rw [if_pos h, max_eq_right h.le]
      rfl
    · rw [if_neg (not_lt.mpr h), max_eq_left h]
  have hA : 1 ≤ blogLatestApp db := by
    rw [happ]
    have : (1 : Int) ≤ max P 1 := le_max_right _ _
    omega
  have hb := ceilDivBounds (N := (publishedBlogPosts db).length) hA hN
  exact ⟨happ, hb.1, hb.2⟩

/-- Store for the C7 witness: five published blog posts, page size 2. -/
def c7Db : Db :=
  ⟨[⟨31, some (toStr "A"), toStr "a", toStr "blog", 1, none, none, none,
      toStr "5", none, none, none, 0⟩,
    ⟨32, some (toStr "B"), toStr "b", toStr "blog", 1, none, none, none,
      toStr "4", none, none, none, 0⟩,
    ⟨33, some (toStr "C"), toStr "c", toStr "blog", 1, none, none, none,
      toStr "3", none, none, none, 0⟩,
    ⟨34, some (toStr "D"), toStr "d", toStr "blog", 1, none, none, none,
      toStr "2", none, none, none, 0⟩,
    ⟨35, some (toStr "E"), toStr "e", toStr "blog", 1, none, none, none,
      toStr "1", none, none, none, 0⟩],
    [(toStr "blog_articles_per_page", toStr "2")], [], [], [], [], []⟩

theorem c7_witness :
    blogLatestApp c7Db = 2 ∧
    blogLatestTotalPages c7Db = 3 ∧
    5 ≤ blogLatestTotalPages c7Db * blogLatestApp c7Db ∧
    blogLatestApp c7Db * (blogLatestTotalPages c7Db - 1) < 5 := by
  have h := c7_page_size_clamped_and_total_is_ceiling c7Db (toStr "2") 2
    (by decide) (by decide) (by decide)
  refine ⟨by decide, by decide, ?_, ?_⟩
  · have := h.2.1
    simpa using this
  · have := h.2.2
    simpa using this

theorem paramSubGo_id {name v : Str} :
    ∀ (fuel : Nat) (s : Str), (∀ t, t <:+ s → tryMatchParam name t = none) →
      paramSubGo name v fuel s = s := by
  intro fuel
  induction fuel with
  | zero => intro s _; rfl
  | succ n ih =>
    intro s h
    cases s with
    | nil => rfl
    | cons c rest =>
      have h0 : tryMatchParam name (c :: rest) = none := h _ (List.suffix_refl _)
      simp only [paramSubGo, h0]
      rw [ih rest (fun t ht => h t (ht.trans (List.suffix_cons c rest)))]

theorem paramSubName_id {name v s : Str}
    (h : ∀ t, t <:+ s → tryMatchParam name t = none) :
    paramSubName name v s = s :=
  paramSubGo_id _ _ h

theorem tryMatchParam_pageTitle_none {name : Str}
    (hcolon : ':' ∉ name) (hpage : name ≠ toStr "page") :
    ∀ t, t <:+ tokPageTitle → tryMatchParam name t = none := by
  intro t ht
  have he : tokPageTitle =
      '\x7b' :: '\x7b' :: 'p' :: 'a' :: 'g' :: 'e' :: ':' :: 't' :: 'i' :: 't' ::
        'l' :: 'e' :: '\x7d' :: '\x7d' :: [] := rfl
  rw [he] at ht
  simp only [List.suffix_cons_iff, List.suffix_nil] at ht
  rcases ht with rfl | rfl | rfl | rfl | rfl | rfl | rfl | rfl | rfl | rfl | rfl |
    rfl | rfl | rfl | rfl
  · simp only [tryMatchParam]
    rw [if_pos ⟨rfl, rfl⟩]
    rw [(by decide :
      (List.takeWhile pyIsSpace
        ('p' :: 'a' :: 'g' :: 'e' :: ':' :: 't' :: 'i' :: 't' :: 'l' :: 'e' ::
          '\x7d' :: '\x7d' :: [])).length = 0)]
    simp only [paramBacktrack, paramTryAt, List.drop_zero, stripPfx]
    by_cases hpre :
        name.isPrefixOf
          ('p' :: 'a' :: 'g' :: 'e' :: ':' :: 't' :: 'i' :: 't' :: 'l' :: 'e' ::
            '\x7d' :: '\x7d' :: [])
    · rw [if_pos hpre]
      have hp := List.isPrefixOf_iff_prefix.mp hpre
      have htake := List.prefix_iff_eq_take.mp hp
      have hlen : name.length ≤ 12 := by simpa using hp.length_le
      generalize hn : name.length = n at htake hlen ⊢
      interval_cases n <;> (subst htake; revert hcolon hpage; decide)
    · rw [if_neg hpre]
  all_goals simp [tryMatchParam, lb]

theorem parseTemplateGo_no_backslash :
    ∀ (fuel : Nat) (s : Str), s.length < fuel → '\\' ∉ s →
      parseTemplateGo fuel s = Except.ok (s.map TmplPiece.lit) := by
  intro fuel
  induction fuel with
  | zero => intro s h _; exact absurd h (Nat.not_lt_zero _)
  | succ n ih =>
    intro s hlen hbs
    cases s with
    | nil => rfl
    | cons c rest =>
      have hc : c ≠ '\\' := fun he => hbs (he ▸ List.mem_cons_self _ _)
      simp only [parseTemplateGo, if_neg hc,
        ih rest (Nat.lt_of_succ_lt_succ (by simpa using hlen))
          (fun hm => hbs (List.mem_cons_of_mem _ hm)),
        Except.map, List.map_cons]

theorem parseTemplate_no_backslash {v : Str} (h : '\\' ∉ v) :
    parseTemplate v = Except.ok (v.map TmplPiece.lit) :=
  parseTemplateGo_no_backslash _ _ (Nat.lt_succ_self _) h

theorem expandTemplate_map_lit (v m : Str) :
    expandTemplate (v.map TmplPiece.lit) m = v := by
  induction v with
  | nil => rfl
  | cons c rest ih =>
    simp only [expandTemplate, List.map_cons, List.flatMap_cons] at ih ⊢
    rw [ih]
    rfl

theorem paramSubGoT_map_lit (name v : Str) :
    ∀ (fuel : Nat) (s : Str),
      paramSubGoT name (v.map TmplPiece.lit) fuel s = paramSubGo name v fuel s := by
  intro fuel
  induction fuel with
  | zero => intro s; rfl
  | succ n ih =>
    intro s
    cases s with
    | nil => rfl
    | cons c rest =>
      simp only [paramSubGoT, paramSubGo]
      cases tryMatchParam name (c :: rest) with
      | none => simp only [ih]
      | some r => simp only [expandTemplate_map_lit, ih]

theorem paramSubFull_no_backslash {name v s : Str} (h : '\\' ∉ v) :
    paramSubFull name v s = Except.ok (paramSubName name v s) := by
  simp only [paramSubFull, parseTemplate_no_backslash h, paramSubGoT_map_lit, paramSubName]

theorem paramSubGoT_id {name : Str} {ps : List TmplPiece} :
    ∀ (fuel : Nat) (s : Str), (∀ t, t <:+ s → tryMatchParam name t = none) →
      paramSubGoT name ps fuel s = s := by
  intro fuel
  induction fuel with
  | zero => intro s _; rfl
  | succ n ih =>
    intro s h
    cases s with
    | nil => rfl
    | cons c rest =>
      have h0 : tryMatchParam name (c :: rest) = none := h _ (List.suffix_refl _)
      simp only [paramSubGoT, h0]
      rw [ih rest (fun t ht => h t (ht.trans (List.suffix_cons c rest)))]

theorem paramSubFull_id {name v s : Str} {ps : List TmplPiece}
    (hps : parseTemplate v = Except.ok ps)
    (h : ∀ t, t <:+ s → tryMatchParam name t = none) :
    paramSubFull name v s = Except.ok s := by
  simp only [paramSubFull, hps, paramSubGoT_id _ _ h]

theorem paramSubFull_error {name v s : Str} {e : ReError}
    (hps : parseTemplate v = Except.error e) :
    paramSubFull name v s = Except.error e := by
  simp only [paramSubFull, hps]

/-- C2 amended: parameter substitution does rewrite a reserved token when
the parameter's name matches the token's leading segment — a binding
named `page` turns `\x7b\x7bpage:title\x7d\x7d` into its backslash-free
value, and into the matched token text itself for the template value
`\g<0>` — while a binding whose name contains no colon and is not the
namespace word `page` leaves `\x7b\x7bpage:title\x7d\x7d` unchanged for
every value that is a valid replacement template; a value that is an
invalid template makes `pattern.sub` raise instead of returning, even
with no match present. -/
theorem c2_amended_param_names_can_capture_reserved :
    (∀ v : Str, '\\' ∉ v →
      paramResolveFull [(toStr "page", some v)] tokPageTitle = Except.ok v) ∧
    paramSubFull (toStr "page") (toStr "\\g<0>") tokPageTitle =
      Except.ok tokPageTitle ∧
    (∀ (name v : Str) (ps : List TmplPiece), ':' ∉ name → name ≠ toStr "page" →
      parseTemplate v = Except.ok ps →
      paramSubFull name v tokPageTitle = Except.ok tokPageTitle) ∧
    (∀ (name v s : Str) (e : ReError), parseTemplate v = Except.error e →
      paramSubFull name v s = Except.error e) := by
  refine ⟨?_, by decide, ?_, ?_⟩
  · intro v hv
    have h1 : paramResolveFull [(toStr "page", some v)] tokPageTitle =
        paramSubFull (toStr "page") v tokPageTitle := by
      show paramSubFull (toStr "page") v tokPageTitle >>=
          (fun b => (List.foldlM (fun c kv => paramSubFull kv.1 (pyStr kv.2) c) b
            ([] : List (Str × Option Str)))) = _
      cases paramSubFull (toStr "page") v tokPageTitle <;> rfl
    rw [h1, paramSubFull_no_backslash hv]
    have h2 : paramSubName (toStr "page") v tokPageTitle = v ++ [] := rfl
    simp [h2]
  · intro name v ps hc hp hps
    exact paramSubFull_id hps (tryMatchParam_pageTitle_none hc hp)
  · intro name v s e hps
    exact paramSubFull_error hps

theorem c2_amended_witness :
    paramSubFull (toStr "slot") (toStr "V") tokPageTitle = Except.ok tokPageTitle :=
  c2_amended_param_names_can_capture_reserved.2.2.1 (toStr "slot") (toStr "V")
    [TmplPiece.lit 'V'] (by decide) (by decide) (by decide)

theorem tryCloseIf_none_of_no_slash {t : Str} (h : '/' ∉ t) : tryCloseIf t = none := by
  cases t with
  | nil => rfl
  | cons c1 t1 =>
    cases t1 with
    | nil => rfl
    | cons c2 rest =>
      simp only [tryCloseIf]
      split
      · rcases hd : dropWs rest with _ | ⟨sl, _ | ⟨i, _ | ⟨f, t2⟩⟩⟩ <;> try rfl
        have hsl : sl ≠ '/' := by
          intro heq
          apply h
          have hm : sl ∈ dropWs rest := by
            rw [hd]
            exact List.mem_cons_self _ _
          have hm2 : sl ∈ rest := (List.dropWhile_sublist _).subset hm
          subst heq
          exact List.mem_cons_of_mem _ (List.mem_cons_of_mem _ hm2)
        simp [hsl]
      · rfl

theorem searchClose_none_of_no_slash {s : Str} (h : '/' ∉ s) : searchClose s = none := by
  induction s with
  | nil => rfl
  | cons c rest ih =>
    simp only [searchClose]
    rw [tryCloseIf_none_of_no_slash h,
      ih (fun hm => h (List.mem_cons_of_mem _ hm))]

theorem openIfTail_suffix {t2 k t4 : Str} (h : openIfTail t2 = some (k, t4)) :
    t4 <:+ t2 := by
  unfold openIfTail at h
  split at h
  next w s2 srest d1 d2 t4' hst hdt =>
    split at h
    · rw [Option.some.injEq, Prod.mk.injEq] at h
      obtain ⟨-, rfl⟩ := h
      have hsub : d1 :: d2 :: t4' <:+ t2 := by
        rw [← hdt]
        exact List.dropWhile_suffix _
      exact ((List.suffix_cons d2 t4').trans (List.suffix_cons d1 _)).trans hsub
    · exact Option.noConfusion h
  next => exact Option.noConfusion h

theorem tryOpenIf_suffix {s k t : Str} (h : tryOpenIf s = some (k, t)) : t <:+ s := by
  cases s with
  | nil => exact Option.noConfusion h
  | cons c1 s1 =>
    cases s1 with
    | nil => exact Option.noConfusion h
    | cons c2 rest =>
      simp only [tryOpenIf] at h
      split at h
      case isFalse => exact Option.noConfusion h
      case isTrue =>
        split at h
        case h_2 => exact Option.noConfusion h
        case h_1 i f t2 hd =>
          split at h
          case isFalse => exact Option.noConfusion h
          case isTrue =>
            have h5 := openIfTail_suffix h
            have h3 : t2 <:+ dropWs rest := by
              rw [hd]
              exact (List.suffix_cons f t2).trans (List.suffix_cons i _)
            have h4 : dropWs rest <:+ rest := List.dropWhile_suffix _
            exact (((h5.trans h3).trans h4).trans
              (List.suffix_cons c2 rest)).trans (List.suffix_cons c1 _)

theorem searchIf_none_of_no_slash {s : Str} (h : '/' ∉ s) : searchIf s = none := by
  induction s with
  | nil => rfl
  | cons c rest ih =>
    have htail : searchIf rest = none := ih (fun hm => h (List.mem_cons_of_mem _ hm))
    simp only [searchIf]
    rcases ho : tryOpenIf (c :: rest) with _ | ⟨k, t⟩
    · simp only [htail]
    · simp only [searchClose_none_of_no_slash
        (fun hm => h ((tryOpenIf_suffix ho).subset hm)), Option.map_none', htail]

theorem applyCondLoop_id {page : PageRec} {fuel : Nat} {s : Str}
    (h : searchIf s = none) : applyCondLoop page fuel s = s := by
  cases fuel with
  | zero => rfl
  | succ n => simp [applyCondLoop, h]

theorem tryMatchParam_none_of_no_lb {name t : Str} (h : lb ∉ t) :
    tryMatchParam name t = none := by
  cases t with
  | nil => rfl
  | cons c1 t1 =>
    cases t1 with
    | nil => rfl
    | cons c2 rest =>
      have hc : c1 ≠ lb := fun heq => h (heq ▸ List.mem_cons_self _ _)
      simp only [tryMatchParam]
      rw [if_neg (by simp [hc])]

/-- C8 counterexample: `pattern.sub` parses the replacement template
before scanning, so with the parameter value `\q` it raises `re.error`
("bad escape") although the content `Hello` contains no brace marker and
thus no token at all — the resolution step is not raise-free. -/
theorem c8_counterexample :
    containsSub obrace (toStr "Hello") = false ∧
    paramSubFull (toStr "a") (toStr "\\q") (toStr "Hello") =
      Except.error ReError.badEscape := by
  refine ⟨by decide, by decide⟩

/-- C8 amended: the resolvers leave malformed token text in the content
verbatim, and return normally unless a parameter value is an invalid
replacement template: a fragment with no `/` anywhere (so any
`\x7b\x7bif ...\x7d\x7d` in it is unterminated) passes through the
conditional stage unchanged; for every binding whose value parses as a
replacement template (in particular every backslash-free value),
parameter substitution returns any fragment without an opening brace
unchanged; the whole of `replace_special_tokens` leaves the concrete
unterminated-conditional fragment `\x7b\x7bif page:title\x7d\x7dHello`
verbatim; a binding whose value is an invalid replacement template makes
the substitution raise, regardless of the content; and content without
the `\x7b\x7b` marker is returned untouched by the block resolver. -/
theorem c8_malformed_left_verbatim :
    (∀ (page : PageRec) (s : Str), '/' ∉ s → applyConditionals page s = s) ∧
    (∀ (name v s : Str) (ps : List TmplPiece), lb ∉ s →
      parseTemplate v = Except.ok ps → paramSubFull name v s = Except.ok s) ∧
    replaceSpecialTokens cePage ceDb (toStr "\x7b\x7bif page:title\x7d\x7dHello") =
      toStr "\x7b\x7bif page:title\x7d\x7dHello" ∧
    (∀ (name v s : Str) (e : ReError), parseTemplate v = Except.error e →
      paramSubFull name v s = Except.error e) ∧
    (∀ (params : List (Str × Option Str)) (page : PageRec) (db : Db) (s : Str),
      containsSub obrace s = false → resolveBlockContent page db params s = s) := by
  refine ⟨?_, ?_, by decide, ?_, ?_⟩
  · intro page s h
    exact applyCondLoop_id (searchIf_none_of_no_slash h)
  · intro name v s ps h hps
    refine paramSubFull_id hps (fun t ht => ?_)
    exact tryMatchParam_none_of_no_lb (fun hm => h (ht.subset hm))
  · intro name v s e hps
    exact paramSubFull_error hps
  · intro params page db s h
    simp [resolveBlockContent, h]

theorem c8_witness :
    paramSubFull (toStr "a") (toStr "V") (toStr "Hello") =
      Except.ok (toStr "Hello") :=
  c8_malformed_left_verbatim.2.1 (toStr "a") (toStr "V") (toStr "Hello")
    [TmplPiece.lit 'V'] (by decide) (by decide)

theorem tryOpenIf_none_of_no_lb {t : Str} (h : lb ∉ t) : tryOpenIf t = none := by
  cases t with
  | nil => rfl
  | cons c1 t1 =>
    cases t1 with
    | nil => rfl
    | cons c2 rest =>
      have hc : c1 ≠ lb := fun heq => h (heq ▸ List.mem_cons_self _ _)
      simp only [tryOpenIf]
      rw [if_neg (by simp [hc])]

theorem searchIf_none_of_no_lb {s : Str} (h : lb ∉ s) : searchIf s = none := by
  induction s with
  | nil => rfl
  | cons c rest ih =>
    simp only [searchIf, tryOpenIf_none_of_no_lb h,
      ih (fun hm => h (List.mem_cons_of_mem _ hm))]

theorem tryCloseIf_none_of_head_ne_lb {c : Char} {l : Str} (hc : c ≠ lb) :
    tryCloseIf (c :: l) = none := by
  cases l with
  | nil => rfl
  | cons c2 rest =>
    simp only [tryCloseIf]
    rw [if_neg (by simp [hc])]

theorem searchClose_append {b t : Str} (hb : lb ∉ b) :
    searchClose (b ++ t) =
      (searchClose t).map (fun p => (b ++ p.1, p.2)) := by
  induction b with
  | nil =>
    simp only [List.nil_append]
    cases searchClose t with
    | none => rfl
    | some p => simp
  | cons c b ih =>
    have hc : c ≠ lb := fun heq => hb (heq ▸ List.mem_cons_self _ _)
    simp only [List.cons_append, searchClose,
      tryCloseIf_none_of_head_ne_lb hc, List.append_eq,
      ih (fun hm => hb (List.mem_cons_of_mem _ hm))]
    cases searchClose t with
    | none => rfl
    | some p => rfl

theorem searchIf_eq_of_open {c : Char} {rest k t b after : Str}
    (h1 : tryOpenIf (c :: rest) = some (k, t))
    (h2 : searchClose t = some (b, after)) :
    searchIf (c :: rest) = some ([], k, b, after) := by
  simp only [searchIf, h1, h2, Option.map_some']

theorem applyConditionals_region_title (page : PageRec) (b : Str) (hb : lb ∉ b) :
    applyConditionals page
        (toStr "\x7b\x7bif page:title\x7d\x7d" ++ b ++ toStr "\x7b\x7b/if\x7d\x7d") =
      if evalCondition page (toStr "page:title") then b else [] := by
  have h1 : tryOpenIf
      (toStr "\x7b\x7bif page:title\x7d\x7d" ++ b ++ toStr "\x7b\x7b/if\x7d\x7d") =
      some (toStr "page:title", b ++ toStr "\x7b\x7b/if\x7d\x7d") := rfl
  have h2 : searchClose (b ++ toStr "\x7b\x7b/if\x7d\x7d") = some (b, []) := by
    have hcl : searchClose (toStr "\x7b\x7b/if\x7d\x7d") = some ([], []) := by decide
    rw [searchClose_append hb, hcl]
    simp
  have hs : searchIf
      (toStr "\x7b\x7bif page:title\x7d\x7d" ++ b ++ toStr "\x7b\x7b/if\x7d\x7d") =
      some ([], toStr "page:title", b, []) := searchIf_eq_of_open h1 h2
  show applyCondLoop page _ _ = _
  rw [applyCondLoop, hs]
  simp only [List.nil_append, List.append_nil]
  cases hev : evalCondition page (toStr "page:title") with
  | false =>
    simp only [Bool.false_eq_true, if_false]
    exact applyCondLoop_id rfl
  | true =>
    simp only [if_true]
    exact applyCondLoop_id (searchIf_none_of_no_lb hb)

theorem applyConditionals_region_foo (page : PageRec) (b : Str) (hb : lb ∉ b) :
    applyConditionals page
        (toStr "\x7b\x7bif foo\x7d\x7d" ++ b ++ toStr "\x7b\x7b/if\x7d\x7d") = [] := by
  have h1 : tryOpenIf
      (toStr "\x7b\x7bif foo\x7d\x7d" ++ b ++ toStr "\x7b\x7b/if\x7d\x7d") =
      some (toStr "foo", b ++ toStr "\x7b\x7b/if\x7d\x7d") := rfl
  have h2 : searchClose (b ++ toStr "\x7b\x7b/if\x7d\x7d") = some (b, []) := by
    have hcl : searchClose (toStr "\x7b\x7b/if\x7d\x7d") = some ([], []) := by decide
    rw [searchClose_append hb, hcl]
    simp
  have hs : searchIf
      (toStr "\x7b\x7bif foo\x7d\x7d" ++ b ++ toStr "\x7b\x7b/if\x7d\x7d") =
      some ([], toStr "foo", b, []) := searchIf_eq_of_open h1 h2
  show applyCondLoop page _ _ = _
  rw [applyCondLoop, hs]
  have hev : evalCondition page (toStr "foo") = false := rfl
  simp only [hev, Bool.false_eq_true, if_false, List.nil_append, List.append_nil]
  exact applyCondLoop_id rfl

/-- C5: a `\x7b\x7bif <key>\x7d\x7d<body>\x7b\x7b/if\x7d\x7d` region is
replaced by the body when the predicate is true and by the empty string
when it is false; `page:title` is true iff the page title is non-empty
after trimming; any key other than the three supported ones evaluates
false, so its region is erased. -/
theorem c5_conditional_region_semantics :
    (∀ (page : PageRec) (b : Str), lb ∉ b →
      applyConditionals page
          (toStr "\x7b\x7bif page:title\x7d\x7d" ++ b ++ toStr "\x7b\x7b/if\x7d\x7d") =
        if evalCondition page (toStr "page:title") then b else []) ∧
    (∀ page : PageRec, evalCondition page (toStr "page:title") =
      !(pyStrip (orEmpty page.title)).isEmpty) ∧
    (∀ (page : PageRec) (key : Str),
      lowerStr (pyStrip key) ∉
        [toStr "page:featured", toStr "page:excerpt", toStr "page:title"] →
      evalCondition page key = false) ∧
    (∀ (page : PageRec) (b : Str), lb ∉ b →
      applyConditionals page
          (toStr "\x7b\x7bif foo\x7d\x7d" ++ b ++ toStr "\x7b\x7b/if\x7d\x7d") = []) := by
  refine ⟨applyConditionals_region_title, fun page => rfl, ?_,
    applyConditionals_region_foo⟩
  intro page key hk
  simp only [List.mem_cons, List.mem_singleton] at hk
  push_neg at hk
  obtain ⟨h1, h2, h3, -⟩ := hk
  simp only [evalCondition]
  rw [if_neg h1, if_neg h2, if_neg h3]

/-- Page whose title is whitespace only (trims to empty). -/
def blankTitlePage : PageRec :=
  ⟨3, some (toStr "  "), toStr "blank", toStr "page", 0, none, none, none,
    toStr "2024", none, none, none, 0⟩

theorem c5_witness :
    applyConditionals blankTitlePage
        (toStr "\x7b\x7bif page:title\x7d\x7d" ++ toStr "X" ++ toStr "\x7b\x7b/if\x7d\x7d") =
      [] ∧
    applyConditionals wPage
        (toStr "\x7b\x7bif page:title\x7d\x7d" ++ toStr "X" ++ toStr "\x7b\x7b/if\x7d\x7d") =
      toStr "X" := by
  constructor
  · rw [c5_conditional_region_semantics.1 blankTitlePage (toStr "X") (by decide)]
    decide
  · rw [c5_conditional_region_semantics.1 wPage (toStr "X") (by decide)]
    decide

end Cms
